import Mathlib

/-!
Shallow embedding of `lockfree_pq.hpp` (namespace `lf`): the hazard-pointer
reclamation domain (`HazardDomain`) and the skip-list based priority queue
(`LockFreePQ`), as executed single-threadedly.  The value type `T` is taken
to be `Int` (the demo driver uses `int`, and no arithmetic beyond comparison
is performed on values).

Pointers are modelled as `Option Nat` into an allocation store; `none` is
`nullptr`.  Dereferencing `nullptr`, reading an out-of-bounds or freed slot,
and any other undefined behaviour is modelled by the outcome `Res.crash`.
Unbounded loops take a fuel argument; fuel exhaustion is the distinct
outcome `Res.oot`, never identified with a crash.  A C++ exception escaping
a `noexcept` function calls `std::terminate`, modelled by `Res.term`.
-/

namespace LFPQ

/-- Outcome of executing a fragment of the C++ code. -/
inductive Res (α : Type) where
  | ok (a : α)
  | crash
  | oot
  | term
deriving DecidableEq

def Res.bind {α β : Type} : Res α → (α → Res β) → Res β
  | .ok a, f => f a
  | .crash, _ => .crash
  | .oot, _ => .oot
  | .term, _ => .term

instance : Monad Res where
  pure := Res.ok
  bind := Res.bind

def Res.map {α β : Type} (f : α → β) : Res α → Res β
  | .ok a => .ok (f a)
  | .crash => .crash
  | .oot => .oot
  | .term => .term

/-- Identifier of an allocated node: an index into the allocation store. -/
abbrev NodeId := Nat

/-- A pointer value; `none` is `nullptr`. -/
abbrev Ptr := Option NodeId

-- ---------------------------------------------------------------------------
-- HazardDomain
-- ---------------------------------------------------------------------------

/-- `static const size_t MAX_HAZARD_POINTERS = 128;` -/
def MAX_HAZARD_POINTERS : Nat := 128

/-- A record of `retired_`: `struct Retired { void* ptr; std::function<void(void*)> deleter; };`.
The deleter thunk is identified by a tag (the queue always passes the one
deleter `delete static_cast<Node*>(p)`, tag `0`). -/
structure Retired where
  ptr : Ptr
  del : Nat
deriving DecidableEq

/-- State of `class HazardDomain`: the 128 hazard slots `hp_` and the list
`retired_`.  The extra field `freed` is a ghost history of the deleter
invocations `it->deleter(it->ptr)` performed by `scan`, in invocation
order; the C++ object has no such member, it records the side effect. -/
structure HazardDomain where
  hp : List Ptr
  retired : List Retired
  freed : List Retired
deriving DecidableEq

/-- The domain as built by the private constructor: all slots null. -/
def mkHazardDomain : HazardDomain :=
  { hp := List.replicate MAX_HAZARD_POINTERS none, retired := [], freed := [] }

/-- The erase loop of `HazardDomain::scan`: walks the retired list in order;
a record whose pointer is absent from `hazards` has its deleter invoked and
is erased, otherwise it is kept.  Returns (records kept, records freed in
invocation order). -/
def scanLoop (hazards : List Ptr) : List Retired → List Retired × List Retired
  | [] => ([], [])
  | r :: rest =>
    let (keep, fr) := scanLoop hazards rest
    if hazards.contains r.ptr then (r :: keep, fr) else (keep, r :: fr)

/-- `HazardDomain::scan`: snapshot the non-null hazard slots, then run the
erase loop over `retired_`. -/
def HazardDomain.scan (d : HazardDomain) : HazardDomain :=
  let hazards := d.hp.filter (fun p => p.isSome)
  let (keep, fr) := scanLoop hazards d.retired
  { d with retired := keep, freed := d.freed ++ fr }

/-- `HazardDomain::retire`: append `{ptr, deleter}` to `retired_`; when the
list size now exceeds `MAX_HAZARD_POINTERS`, run `scan`. -/
def HazardDomain.retire (d : HazardDomain) (r : Retired) : HazardDomain :=
  let d1 : HazardDomain := { d with retired := d.retired ++ [r] }
  if d1.retired.length > MAX_HAZARD_POINTERS then d1.scan else d1

-- ---------------------------------------------------------------------------
-- LockFreePQ: data model
-- ---------------------------------------------------------------------------

/-- `static const int MaxLevel = 16;` -/
def MaxLevel : Nat := 16

/-- `struct Node` of `LockFreePQ<int>`.  `next` holds the initialized slots
`next[0 .. topLevel]`; reading `next[l]` for `l > topLevel` is a read of an
uninitialized atomic, modelled as undefined behaviour. -/
structure Node where
  value : Int
  topLevel : Nat
  next : List Ptr
  marked : Bool
  fullyLinked : Bool
deriving DecidableEq

/-- State of a `LockFreePQ<int>`: the allocation store (`none` marks a slot
whose node has been `delete`d), the two sentinels, the approximate counter
`count_` (a `size_t`, kept modulo `2 ^ 64`), and the reclamation domain
`domain_`. -/
structure PQ where
  nodes : List (Option Node)
  headId : NodeId
  tailId : NodeId
  count : Nat
  domain : HazardDomain
deriving DecidableEq

/-- `2 ^ 64`, the modulus of `size_t` arithmetic on `count_`. -/
def W64 : Nat := 2 ^ 64

/-- The sentinel constructor `Node(int level)`: default value, all
initialized next slots null. -/
def mkSentinel (level : Nat) : Node :=
  { value := 0, topLevel := level, next := List.replicate (level + 1) none,
    marked := false, fullyLinked := false }

/-- The constructor `LockFreePQ(HazardDomain* domain = nullptr)`: allocate
head and tail sentinels of level `MaxLevel`, point every `head_->next[i]`
at the tail, zero the counter, bind the (fresh) domain. -/
def mkPQ : PQ :=
  { nodes := [some { mkSentinel MaxLevel with
                       next := List.replicate (MaxLevel + 1) (some 1) },
              some (mkSentinel MaxLevel)],
    headId := 0, tailId := 1, count := 0, domain := mkHazardDomain }

/-- Read the node stored at id `i` (`none`: never allocated or freed). -/
def getNode (s : PQ) (i : NodeId) : Option Node :=
  (s.nodes[i]?).bind id

/-- Overwrite the node stored at id `i`. -/
def setNode (s : PQ) (i : NodeId) (n : Node) : PQ :=
  { s with nodes := s.nodes.set i (some n) }

/-- `delete` the node stored at id `i`. -/
def freeNode (s : PQ) (i : NodeId) : PQ :=
  { s with nodes := s.nodes.set i none }

/-- `new Node(...)`: append to the store, returning the fresh id. -/
def allocNode (s : PQ) (n : Node) : NodeId × PQ :=
  (s.nodes.length, { s with nodes := s.nodes ++ [some n] })

/-- Dereference a pointer; null or dangling is undefined behaviour. -/
def derefNode (s : PQ) (p : Ptr) : Res (NodeId × Node) :=
  match p with
  | none => .crash
  | some i =>
    match getNode s i with
    | none => .crash
    | some n => .ok (i, n)

/-- `p->next[lvl].load(...)`; reading a slot above the node topLevel is a
read of an uninitialized atomic (undefined). -/
def loadNext (s : PQ) (p : Ptr) (lvl : Nat) : Res Ptr := do
  let (_, n) ← derefNode s p
  match n.next[lvl]? with
  | none => Res.crash
  | some q => Res.ok q

/-- `node(i)->next[lvl].compare_exchange_strong(expected, desired)`:
returns (succeeded, value read, state).  On failure the C++ call stores the
value read back into the `expected` lvalue; callers replicate that. -/
def casNext (s : PQ) (i : NodeId) (lvl : Nat) (expected desired : Ptr) :
    Res (Bool × Ptr × PQ) := do
  let (_, n) ← derefNode s (some i)
  match n.next[lvl]? with
  | none => Res.crash
  | some actual =>
    if actual = expected then
      Res.ok (true, actual, setNode s i { n with next := n.next.set lvl desired })
    else
      Res.ok (false, actual, s)

-- ---------------------------------------------------------------------------
-- LockFreePQ::findNode
-- ---------------------------------------------------------------------------

/-- The inner `while (curr->marked.load(...))` loop of `findNode` at one
level: unlink the marked `curr` by a CAS on `pred->next[level]`; on CAS
failure reread `curr = pred->next[level].load()` and re-test (the stale
`succ` is kept, as in the source); on success step `curr = succ` and reload
`succ = curr->next[level]`.  Exits when `curr` is unmarked, returning its id
(the exit test dereferenced it) together with the current `succ`. -/
def markedSkip (lvl : Nat) (pred : NodeId) :
    Nat → PQ → Ptr → Ptr → Res (PQ × NodeId × Ptr)
  | 0, _, _, _ => .oot
  | fuel + 1, s, curr, succ => do
    let (cid, c) ← derefNode s curr
    if !c.marked then
      Res.ok (s, cid, succ)
    else do
      let (won, _actual, s1) ← casNext s pred lvl curr succ
      if won then do
        let succ2 ← loadNext s1 succ lvl
        markedSkip lvl pred fuel s1 succ succ2
      else do
        let curr2 ← loadNext s1 (some pred) lvl
        markedSkip lvl pred fuel s1 curr2 succ

/-- The `while (true)` loop of `findNode` at one level.  Each iteration
loads `succ = curr->next[level]` (dereferencing `curr`, which crashes when a
previous iteration stepped past the tail sentinel onto its null successor),
runs the marked-skip loop, then either advances (`curr == tail_ ||
curr->value < key`) or breaks, returning `(pred, curr)` for this level. -/
def levelLoop (key : Int) (lvl : Nat) :
    Nat → PQ → NodeId → Ptr → Res (PQ × NodeId × NodeId)
  | 0, _, _, _ => .oot
  | fuel + 1, s, pred, curr => do
    let succ ← loadNext s curr lvl
    let (s1, cid, succ1) ← markedSkip lvl pred (fuel + 1) s curr succ
    if cid = s1.tailId then
      levelLoop key lvl fuel s1 cid succ1
    else do
      let (_, c) ← derefNode s1 (some cid)
      if c.value < key then
        levelLoop key lvl fuel s1 cid succ1
      else
        Res.ok (s1, pred, cid)

/-- The `for (int level = MaxLevel; level >= 0; --level)` loop of
`findNode`, carrying `pred` down.  Returns the filled arrays as a list
whose index `l` holds `(preds[l], succs[l])`. -/
def findLevels (key : Int) (fuel : Nat) :
    Nat → PQ → NodeId → Res (PQ × List (NodeId × NodeId))
  | 0, s, pred => do
    let curr ← loadNext s (some pred) 0
    let (s1, p, c) ← levelLoop key 0 fuel s pred curr
    Res.ok (s1, [(p, c)])
  | l + 1, s, pred => do
    let curr ← loadNext s (some pred) (l + 1)
    let (s1, p, c) ← levelLoop key (l + 1) fuel s pred curr
    let (s2, rest) ← findLevels key fuel l s1 p
    Res.ok (s2, rest ++ [(p, c)])

/-- `LockFreePQ::findNode(key, preds, succs)`: run the level loops from
`MaxLevel` down to `0` starting at `head_`, then compute
`found = succs[0] != tail_ && succs[0]->value == key`. -/
def findNode (s : PQ) (key : Int) (fuel : Nat) :
    Res (PQ × Bool × List (NodeId × NodeId)) := do
  let (s1, pcs) ← findLevels key fuel MaxLevel s s.headId
  match pcs[0]? with
  | none => Res.crash
  | some pc =>
    if pc.2 = s1.tailId then
      Res.ok (s1, false, pcs)
    else do
      let (_, n) ← derefNode s1 (some pc.2)
      Res.ok (s1, n.value == key, pcs)

-- ---------------------------------------------------------------------------
-- LockFreePQ::randomLevel
-- ---------------------------------------------------------------------------

/-- The loop `while (dist_(rng_) < Probability && lvl < MaxLevel) ++lvl;`.
The i-th draw of the thread-local generator is abstracted as the coin
`coins i` (`true` when the draw is below `Probability`).  The loop body can
run at most `MaxLevel - lvl` times because of the `lvl < MaxLevel`
conjunct, so running it with fuel `MaxLevel - lvl` is exact: fuel reaches 0
only when `lvl = MaxLevel`, where the C++ condition is false as well. -/
def randomLevelGo (coins : Nat → Bool) : Nat → Nat → Nat → Nat
  | _, lvl, 0 => lvl
  | i, lvl, fuel + 1 =>
    if coins i && decide (lvl < MaxLevel) then
      randomLevelGo coins (i + 1) (lvl + 1) fuel
    else
      lvl

/-- `LockFreePQ::randomLevel()` under the coin stream `coins`. -/
def randomLevel (coins : Nat → Bool) : Nat :=
  randomLevelGo coins 0 0 MaxLevel

-- ---------------------------------------------------------------------------
-- LockFreePQ::push
-- ---------------------------------------------------------------------------

/-- The constructor loop `for (int lvl = 0; lvl <= topLevel; ++lvl)
newNode->next[lvl].store(succs[lvl], ...)`: build the new node next array
out of `succs[0 .. topLevel]`.  Reading `succs[lvl]` beyond the filled
array is an out-of-bounds stack read (undefined). -/
def newNodeNexts (pcs : List (NodeId × NodeId)) : Nat → Res (List Ptr)
  | 0 =>
    match pcs[0]? with
    | none => .crash
    | some pc => .ok [some pc.2]
  | l + 1 => do
    let rest ← newNodeNexts pcs l
    match pcs[l + 1]? with
    | none => Res.crash
    | some pc => Res.ok (rest ++ [some pc.2])

/-- The inner `while (!preds[lvl]->next[lvl].compare_exchange_strong(
succs[lvl], newNode, ...)) findNode(item, preds, succs);` of `push` at one
level `lvl >= 1`.  (On CAS failure the source also writes the value read
back into `succs[lvl]`; the immediately following `findNode` overwrites
every entry of both arrays, so only the refreshed arrays are carried.) -/
def linkOne (item : Int) (nid : NodeId) (lvl : Nat) :
    Nat → PQ → List (NodeId × NodeId) → Res (PQ × List (NodeId × NodeId))
  | 0, _, _ => .oot
  | fuel + 1, s, pcs =>
    match pcs[lvl]? with
    | none => .crash
    | some pc => do
      let (won, _actual, s1) ← casNext s pc.1 lvl (some pc.2) (some nid)
      if won then
        Res.ok (s1, pcs)
      else do
        let (s2, _found, pcs2) ← findNode s1 item fuel
        linkOne item nid lvl fuel s2 pcs2

/-- The outer `for (int lvl = 1; lvl <= topLevel; ++lvl)` splice loop of
`push`, over the list of levels `[1, ..., topLevel]`. -/
def linkLevelsGo (item : Int) (nid : NodeId) (fuel : Nat) :
    List Nat → PQ → List (NodeId × NodeId) → Res PQ
  | [], s, _ => .ok s
  | lvl :: rest, s, pcs => do
    let (s1, pcs1) ← linkOne item nid lvl fuel s pcs
    linkLevelsGo item nid fuel rest s1 pcs1

/-- The `while (true)` retry loop of `LockFreePQ::push(const T& item)`,
with `topLevel` already drawn.  `allocOk` states whether the allocator can
satisfy `new Node(item, topLevel)`; since `push` is declared `noexcept`,
a `std::bad_alloc` escaping the `new` expression calls `std::terminate`
(`Res.term`).  One iteration: `findNode`; allocate the node with
`next[lvl] = succs[lvl]`; CAS `preds[0]->next[0]` from `succs[0]` to the
node (on failure `delete newNode` and retry); splice levels
`1 .. topLevel`; publish `fullyLinked`; increment `count_`. -/
def pushLoop (item : Int) (topLevel : Nat) (allocOk : Bool) :
    Nat → PQ → Res PQ
  | 0, _ => .oot
  | fuel + 1, s => do
    let (s1, _found, pcs) ← findNode s item fuel
    if !allocOk then
      Res.term
    else do
      let nexts ← newNodeNexts pcs topLevel
      let (nid, s2) := allocNode s1
        { value := item, topLevel := topLevel, next := nexts,
          marked := false, fullyLinked := false }
      match pcs[0]? with
      | none => Res.crash
      | some pc0 => do
        let (won, _actual, s3) ← casNext s2 pc0.1 0 (some pc0.2) (some nid)
        if !won then
          pushLoop item topLevel allocOk fuel (freeNode s3 nid)
        else do
          let s4 ← linkLevelsGo item nid fuel (List.range' 1 topLevel) s3 pcs
          let (_, nn) ← derefNode s4 (some nid)
          let s5 := setNode s4 nid { nn with fullyLinked := true }
          Res.ok { s5 with count := (s5.count + 1) % W64 }

/-- `LockFreePQ::push` with the level drawn from the coin stream. -/
def push (coins : Nat → Bool) (s : PQ) (item : Int) (fuel : Nat) : Res PQ :=
  pushLoop item (randomLevel coins) true fuel s

-- ---------------------------------------------------------------------------
-- LockFreePQ::pop
-- ---------------------------------------------------------------------------

/-- One iteration of the unlink loop of `pop`:
`preds[lvl]->next[lvl].compare_exchange_strong(node,
node->next[lvl].load(...), ...)`.  The desired value dereferences the
current `node`; on CAS failure the call writes the value read into the
local `node` (the C++ `expected` is passed by reference), so later
iterations and the final `retire` see the clobbered pointer. -/
def popUnlinkStep (pcs : List (NodeId × NodeId)) (lvl : Nat) (s : PQ)
    (node : Ptr) : Res (PQ × Ptr) :=
  match pcs[lvl]? with
  | none => .crash
  | some pc => do
    let desired ← loadNext s node lvl
    let (won, actual, s1) ← casNext s pc.1 lvl node desired
    Res.ok (s1, if won then node else actual)

/-- The `for (int lvl = node->topLevel; lvl >= 0; --lvl)` unlink loop of
`pop` (the bound `node->topLevel` is read once, before any clobbering). -/
def popUnlink (pcs : List (NodeId × NodeId)) :
    Nat → PQ → Ptr → Res (PQ × Ptr)
  | 0, s, node => popUnlinkStep pcs 0 s node
  | l + 1, s, node => do
    let (s1, node1) ← popUnlinkStep pcs (l + 1) s node
    popUnlink pcs l s1 node1

/-- Run the `delete static_cast<Node*>(p)` deleter for each record freed by
a scan, in invocation order (deleting a null pointer is a no-op). -/
def applyFrees : PQ → List Retired → PQ
  | s, [] => s
  | s, r :: rest =>
    let s1 := match r.ptr with
      | some i => freeNode s i
      | none => s
    applyFrees s1 rest

/-- `domain_->retire(node, [](void* p) { delete static_cast<Node*>(p); });`:
retire into the bound domain, then apply the deleters a triggered scan ran. -/
def pqRetire (s : PQ) (p : Ptr) : PQ :=
  let d0 := s.domain
  let d1 := d0.retire { ptr := p, del := 0 }
  applyFrees { s with domain := d1 } (d1.freed.drop d0.freed.length)

/-- The `while (true)` loop of `LockFreePQ::pop(T& out)`.  Result
`ok (none, s)`: returned `false` (empty indicator); `ok (some v, s)`:
returned `true` with `out = v`.  One iteration: load
`node = head_->next[0]`; if it is the tail return false; if the node is not
fully linked, `continue`; CAS `marked` from false to true (failure:
`continue`); on success capture `out = node->value`, rerun `findNode` on
that value, run the unlink loop, retire the (possibly clobbered) `node`
pointer, decrement `count_`. -/
def popLoop : Nat → PQ → Res (Option Int × PQ)
  | 0, _ => .oot
  | fuel + 1, s => do
    let np ← loadNext s (some s.headId) 0
    if np = some s.tailId then
      Res.ok (none, s)
    else do
      let (nid, n) ← derefNode s np
      if !n.fullyLinked then
        popLoop fuel s
      else
        if n.marked then
          popLoop fuel s
        else do
          let s1 := setNode s nid { n with marked := true }
          let (s2, _found, pcs) ← findNode s1 n.value fuel
          let (s3, node1) ← popUnlink pcs n.topLevel s2 np
          let s4 := pqRetire s3 node1
          Res.ok (some n.value, { s4 with count := (s4.count + (W64 - 1)) % W64 })

-- ---------------------------------------------------------------------------
-- LockFreePQ::empty / LockFreePQ::size, and operation sequences
-- ---------------------------------------------------------------------------

/-- `LockFreePQ::empty()`: `count_.load(...) == 0`. -/
def PQ.emptyq (s : PQ) : Bool :=
  s.count == 0

/-- `LockFreePQ::size()`: `count_.load(...)`. -/
def PQ.size (s : PQ) : Nat :=
  s.count

/-- A single-threaded API call: a push (with the level its `randomLevel`
draw produced) or a pop. -/
inductive Op where
  | push (v : Int) (lvl : Nat)
  | pop
deriving DecidableEq

/-- Run a sequence of single-threaded API calls on a queue state. -/
def runOps (fuel : Nat) : PQ → List Op → Res PQ
  | s, [] => .ok s
  | s, o :: rest => do
    let s1 ← match o with
      | .push v lvl => pushLoop v lvl true fuel s
      | .pop => do
          let (_, s2) ← popLoop fuel s
          Res.ok s2
    runOps fuel s1 rest

/-- The value of `size()` after a run from a fresh queue, when the run
completes. -/
def sizeAfter (ops : List Op) : Option Nat :=
  match runOps 30 mkPQ ops with
  | .ok s => some s.size
  | _ => none

-- ---------------------------------------------------------------------------
-- Theorems
-- ---------------------------------------------------------------------------

theorem Res.ok_bind {α β : Type} (a : α) (f : α → Res β) :
    (Res.ok a >>= f) = f a := rfl

/-- Shared helper: when `head_->next[0]` is the tail sentinel (the bottom
level holds no entries at all), `pop` takes its first branch: it returns
`false` and performs no write. -/
theorem popLoop_onEmpty (s : PQ) (hn : Node) (fuel : Nat)
    (h1 : getNode s s.headId = some hn)
    (h2 : hn.next[0]? = some (some s.tailId)) :
    popLoop (fuel + 1) s = Res.ok (none, s) := by
  have hload : loadNext s (some s.headId) 0 = Res.ok (some s.tailId) := by
    simp [loadNext, derefNode, h1, h2, Res.ok_bind]
  simp [popLoop, hload, Res.ok_bind]

/-- Helper: the erase loop of `scan` keeps exactly the records whose
pointer occurs among the snapshot `hz` and frees, in list order, exactly
the records whose pointer does not. -/
theorem scanLoop_eq (hz : List Ptr) (l : List Retired) :
    scanLoop hz l =
      (l.filter (fun x => hz.contains x.ptr),
       l.filter (fun x => !(hz.contains x.ptr))) := by
  induction l with
  | nil => simp [scanLoop]
  | cons r rest ih =>
    by_cases h : r.ptr ∈ hz <;>
      simp [scanLoop, ih, List.filter_cons, h]

/-- Helper: the level loop of `randomLevel` raises the level by at most its
iteration budget. -/
theorem randomLevelGo_le (coins : Nat → Bool) :
    ∀ fuel i lvl, randomLevelGo coins i lvl fuel ≤ lvl + fuel := by
  intro fuel
  induction fuel with
  | zero => intro i lvl; simp [randomLevelGo]
  | succ f ih =>
    intro i lvl
    simp only [randomLevelGo]
    split
    · exact le_trans (ih (i + 1) (lvl + 1)) (by omega)
    · omega

/-- Claim C1 (code bug): pushing the spec scenario `[3, 1, 4, 1, 5, 9, 2, 6]`
and popping 8 times does not return the sorted permutation: already the
first `push 3` dereferences a null pointer inside `findNode` (the traversal
advances `pred` past the tail sentinel because of the condition
`curr == tail_ || curr->value < key`, leaving `curr` equal to the null
`tail_->next[level]`), so the run crashes instead of completing. -/
theorem c1_scenario_crashes :
    runOps 30 mkPQ
      [Op.push 3 0, Op.push 1 0, Op.push 4 0, Op.push 1 0,
       Op.push 5 0, Op.push 9 0, Op.push 2 0, Op.push 6 0,
       Op.pop, Op.pop, Op.pop, Op.pop, Op.pop, Op.pop, Op.pop, Op.pop] =
      Res.crash := by
  rfl

/-- Claim C2 (code bug): conservation of the pushed multiset is
unattainable: any run containing a push crashes at that push (null
dereference inside `findNode`), before the pushed value ever becomes
reachable; here the one-push run `push 7` from a fresh queue. -/
theorem c2_conservation_run_crashes :
    runOps 30 mkPQ [Op.push 7 0] = Res.crash := by
  rfl

/-- Claim C3 (code bug): `push 5` three times then four pops does not yield
three returns of `5` and one empty indicator: the very first `push 5`
crashes inside `findNode`. -/
theorem c3_duplicates_run_crashes :
    runOps 30 mkPQ
      [Op.push 5 0, Op.push 5 0, Op.push 5 0, Op.pop, Op.pop, Op.pop, Op.pop] =
      Res.crash := by
  rfl

/-- Claim C4 (code bug): the find traversal does not preserve the
bottom-level order invariant, because it does not terminate normally at
all: on the fresh (trivially sorted) queue, `findNode` advances its
`pred`/`curr` pair past the tail sentinel at level `MaxLevel` and
dereferences the null successor, so no post-state exists. -/
theorem c4_find_crashes :
    findNode mkPQ 3 20 = Res.crash := by
  rfl

/-- Claim C5 (code bug): after `push` returns, the new node is supposed to
be reachable at every level of its tower; but `push` never returns: even
for the minimal tower (`topLevel = 0`) on a fresh queue it crashes inside
`findNode` before allocating or splicing anything. -/
theorem c5_push_crashes_before_splice :
    pushLoop 4 0 true 20 mkPQ = Res.crash := by
  rfl

/-- Claim C6 (code bug): whether or not the allocator can satisfy the
`new Node(...)` of `push`, the operation crashes inside `findNode` before
the allocation point is even reached, so an out-of-memory condition is
never surfaced to the caller. (Had the allocation been reached, `push` is
declared `noexcept`, so the escaping `std::bad_alloc` would have called
`std::terminate` — `Res.term` — rather than propagate.) -/
theorem c6_alloc_never_reached (allocOk : Bool) :
    pushLoop 3 2 allocOk 20 mkPQ = Res.crash := by
  cases allocOk <;> rfl

/-- Claim C7 (confirmed): on any queue state whose bottom level holds no
entries — `head_->next[0]` is the tail sentinel, as in a freshly
constructed queue — `pop` returns the empty indicator `false` at its first
test, without blocking and without modifying the queue. -/
theorem c7_pop_empty (s : PQ) (hn : Node) (fuel : Nat)
    (h1 : getNode s s.headId = some hn)
    (h2 : hn.next[0]? = some (some s.tailId)) :
    popLoop (fuel + 1) s = Res.ok (none, s) :=
  popLoop_onEmpty s hn fuel h1 h2

/-- Witness for C7: the freshly constructed queue. -/
theorem c7_pop_empty_witness :
    popLoop 1 mkPQ = Res.ok (none, mkPQ) :=
  c7_pop_empty mkPQ
    { mkSentinel MaxLevel with next := List.replicate (MaxLevel + 1) (some 1) }
    0 rfl rfl

/-- Counterexample for C8: a forced-tall tower (`topLevel = MaxLevel`) does
not insert correctly — the push crashes inside `findNode` with a null
dereference before any splice. -/
theorem c8_forced_tall_crashes :
    pushLoop 42 MaxLevel true 30 mkPQ = Res.crash := by
  rfl

/-- Claim C8 (amended): for every coin stream, the level chosen by
`randomLevel` lies in `[0, MaxLevel]` (the loop is capped by the
`lvl < MaxLevel` conjunct), hence every index `l ≤ topLevel` prepared for
the new node `next[]` array is within its `MaxLevel + 1` bounds; the
insertion itself however crashes regardless of the level. -/
theorem c8_level_bounded (coins : Nat → Bool) :
    randomLevel coins ≤ MaxLevel ∧
      ∀ l : Nat, l ≤ randomLevel coins → l < MaxLevel + 1 := by
  have h : randomLevel coins ≤ MaxLevel := by
    simpa [randomLevel] using randomLevelGo_le coins MaxLevel 0 0
  exact ⟨h, fun l hl => by omega⟩

/-- Witness for C8: the all-heads coin stream, which drives the level to
the `MaxLevel` cap. -/
theorem c8_level_bounded_witness :
    randomLevel (fun _ => true) ≤ MaxLevel ∧ 16 < MaxLevel + 1 :=
  ⟨(c8_level_bounded (fun _ => true)).1,
   (c8_level_bounded (fun _ => true)).2 16 (by decide)⟩

/-- Claim C9 (confirmed): `retire` appends the `(ptr, deleter)` record to
the retired list and triggers `scan` exactly when the resulting list size
exceeds `MAX_HAZARD_POINTERS`; that scan snapshots the non-null hazard
slots and then frees (invokes the deleter of, and erases) precisely the
retired records whose pointer is absent from the snapshot, keeping every
record whose pointer is present. -/
theorem c9_retire_scan (d : HazardDomain) (r : Retired) :
    HazardDomain.retire d r =
      (if (d.retired ++ [r]).length > MAX_HAZARD_POINTERS then
        { d with
            retired := (d.retired ++ [r]).filter
              (fun x => (d.hp.filter (fun p => p.isSome)).contains x.ptr),
            freed := d.freed ++ (d.retired ++ [r]).filter
              (fun x => !((d.hp.filter (fun p => p.isSome)).contains x.ptr)) }
      else { d with retired := d.retired ++ [r] }) := by
  simp only [HazardDomain.retire, HazardDomain.scan, scanLoop_eq]

/-- Counterexample for C10: after a single push, `size()` cannot return
`n - m = 1`, because the push crashes inside `findNode` and the run never
reaches a state to query. -/
theorem c10_size_after_push_unattainable :
    sizeAfter [Op.push 3 0] = none := by
  rfl

/-- Claim C10 (amended): `empty()` returns true exactly when `size()`
returns 0 — both read the one shared counter `count_` and consult no list
structure — and a pop that returns the empty indicator leaves the counter
(and hence `size()`) unchanged.  The `size() = n - m` accounting after `n`
pushes and `m` successful pops is attainable only for `n = m = 0`, since a
push (and therefore any successful pop) crashes before updating the
counter. -/
theorem c10_empty_iff_size_zero (s : PQ) (hn : Node) (fuel : Nat)
    (h1 : getNode s s.headId = some hn)
    (h2 : hn.next[0]? = some (some s.tailId)) :
    (PQ.emptyq s = true ↔ PQ.size s = 0) ∧
      Res.map (fun r => (r.1, PQ.size r.2)) (popLoop (fuel + 1) s) =
        Res.ok (none, PQ.size s) := by
  constructor
  · simp [PQ.emptyq, PQ.size]
  · rw [popLoop_onEmpty s hn fuel h1 h2]
    rfl

/-- Witness for C10: the freshly constructed queue. -/
theorem c10_empty_iff_size_zero_witness :
    (PQ.emptyq mkPQ = true ↔ PQ.size mkPQ = 0) ∧
      Res.map (fun r => (r.1, PQ.size r.2)) (popLoop 1 mkPQ) =
        Res.ok (none, PQ.size mkPQ) :=
  c10_empty_iff_size_zero mkPQ
    { mkSentinel MaxLevel with next := List.replicate (MaxLevel + 1) (some 1) }
    0 rfl rfl

end LFPQ
